import Mathlib

/-!
Shallow embedding of the bridge core (`src/bridge/mod.rs`): the editor
subprocess launcher, the UI-attach handshake, the command pump with its
resize-coalescing drain-batch algorithm, and the supervisory task that
exits the host when the RPC I/O loop completes.
-/

namespace NeovideBridge

/-- Modelled from the spec: the `UiCommand` type lives in the
`bridge::ui_commands` module, whose source is not available here.  Per the
spec's data model, it is a tagged variant (a Resize carries width and height
in cells; an Input carries a key string; a Scroll carries direction and grid
coordinates) exposing an `is_resize` capability. -/
inductive UiCommand where
  | resize (width height : Nat)
  | input (keys : String)
  | scroll (direction : String) (grid x y : Nat)
deriving DecidableEq, Repr

/-- Modelled from the spec: `is_resize` is true exactly on the Resize variant. -/
def UiCommand.is_resize : UiCommand → Bool
  | .resize _ _ => true
  | _ => false

/--
`executedBatch p cmds` is the sequence of commands executed by one call of
`handle_current_commands` on the drained batch `cmds`, where `p` embeds the
`is_resize` capability.  It mirrors the source body:

    let (resize_list, other_commands) = commands.into_iter().partition(is_resize);
    if let Some(resize_command) = resize_list.into_iter().last() { resize_command.execute(..) }
    for ui_command in other_commands { ui_command.execute(..) }

so the last element of the resize partition (if any) runs first, then every
other command in arrival order.
-/
def executedBatch {C : Type} (p : C → Bool) (cmds : List C) : List C :=
  let parts := cmds.partition p
  parts.1.getLast?.toList ++ parts.2

/--
`CommandQueue` models the consumer end of tokio's unbounded mpsc channel as
seen by the pump at a wake-up point: `pending` is the buffered backlog in
arrival order, `closed` records that every producer end has been released.
-/
structure CommandQueue (C : Type) where
  pending : List C
  closed : Bool

/--
`drain` embeds the source's `drain`: a blocking `recv` yields the head of
the backlog, then the `try_recv` loop moves the rest of the buffered backlog
into the batch in arrival order.  `recv` yields `None` (here: the backlog is
empty) only when the channel is closed; an open empty channel suspends
instead, so the model is consulted only at ready states
(`pending ≠ [] ∨ closed`).
-/
def drain {C : Type} (q : CommandQueue C) : Option (List C) × CommandQueue C :=
  match q.pending with
  | [] => (none, q)
  | c :: rest => (some (c :: rest), { q with pending := [] })

/--
`handle_current_commands` embeds the source function of the same name: drain
a batch; if a batch arrived, partition it, execute the last resize then the
others, and answer `true`; if the queue was closed, answer `false`.  The
returned list is the executed sequence in execution order.
-/
def handle_current_commands {C : Type} (p : C → Bool) (q : CommandQueue C) :
    Bool × List C × CommandQueue C :=
  match drain q with
  | (some cmds, q') => (true, executedBatch p cmds, q')
  | (none, q') => (false, [], q')

/--
`pumpExecuted p batches` is the full execution sequence of the pump loop
over successive drain batches: each cycle's executed commands, cycles in
order of arrival.
-/
def pumpExecuted {C : Type} (p : C → Bool) (batches : List (List C)) : List C :=
  (batches.map (executedBatch p)).flatten

/-- The commands of successive batches in enqueue order. -/
def enqueued {C : Type} (batches : List (List C)) : List C := batches.flatten

theorem partition_fst {C : Type} (p : C → Bool) (l : List C) :
    (l.partition p).1 = l.filter p := by
  rw [List.partition_eq_filter_filter]

theorem partition_snd {C : Type} (p : C → Bool) (l : List C) :
    (l.partition p).2 = l.filter (fun c => !p c) := by
  simp [List.partition_eq_filter_filter, Function.comp_def]

theorem executedBatch_eq {C : Type} (p : C → Bool) (cmds : List C) :
    executedBatch p cmds
      = (cmds.filter p).getLast?.toList ++ cmds.filter (fun c => !p c) := by
  simp [executedBatch, partition_fst, partition_snd, Function.comp_def, List.partition_eq_filter_filter]

theorem filter_getLast_toList {C : Type} (p : C → Bool) (l : List C) :
    ((l.filter p).getLast?.toList).filter p = (l.filter p).getLast?.toList := by
  cases h : (l.filter p).getLast? with
  | none => simp
  | some a =>
    have ha : a ∈ l.filter p := by
      obtain ⟨hne, heq⟩ := List.mem_getLast?_eq_getLast (Option.mem_def.mpr h)
      exact heq ▸ List.getLast_mem hne
    have := List.of_mem_filter ha
    simp [this]

/-- Claim C1: in every drain-batch cycle the executed resize commands are
exactly the last resize of the batch (or none, when the batch has no
resize); in particular at most one resize executes per cycle and every
earlier resize of the batch is dropped. -/
theorem resize_coalescing {C : Type} (p : C → Bool) (cmds : List C) :
    (executedBatch p cmds).filter p = (cmds.filter p).getLast?.toList ∧
    ((executedBatch p cmds).filter p).length ≤ 1 := by
  have hmain : (executedBatch p cmds).filter p = (cmds.filter p).getLast?.toList := by
    rw [executedBatch_eq, List.filter_append, filter_getLast_toList]
    have : (cmds.filter (fun c => !p c)).filter p = [] := by
      rw [List.filter_filter]
      simp only [List.filter_eq_nil_iff]
      intro c hc
      cases hp : p c <;> simp [hp]
    rw [this, List.append_nil]
  refine ⟨hmain, ?_⟩
  rw [hmain]
  cases (cmds.filter p).getLast? <;> simp

theorem executedBatch_filter_not {C : Type} (p : C → Bool) (cmds : List C) :
    (executedBatch p cmds).filter (fun c => !p c) = cmds.filter (fun c => !p c) := by
  rw [executedBatch_eq, List.filter_append]
  have h1 : ((cmds.filter p).getLast?.toList).filter (fun c => !p c) = [] := by
    cases h : (cmds.filter p).getLast? with
    | none => simp
    | some a =>
      have ha : a ∈ cmds.filter p := by
        obtain ⟨hne, heq⟩ := List.mem_getLast?_eq_getLast (Option.mem_def.mpr h)
        exact heq ▸ List.getLast_mem hne
      have := List.of_mem_filter ha
      simp [this]
  have h2 : (cmds.filter (fun c => !p c)).filter (fun c => !p c)
      = cmds.filter (fun c => !p c) := by
    rw [List.filter_filter]
    apply List.filter_congr
    intro c _
    cases hp : p c <;> simp [hp]
  rw [h1, h2, List.nil_append]

/-- Claim C2: non-resize commands are executed in strict enqueue order, both
inside one drain batch and across successive batches: the subsequence of
non-resize commands of the pump's execution sequence equals the subsequence
of non-resize commands of the enqueue sequence. -/
theorem nonresize_fifo {C : Type} (p : C → Bool) (batches : List (List C)) :
    (pumpExecuted p batches).filter (fun c => !p c)
      = (enqueued batches).filter (fun c => !p c) := by
  induction batches with
  | nil => rfl
  | cons b bs ih =>
    simp only [pumpExecuted, enqueued, List.map_cons, List.flatten_cons, List.filter_append]
    rw [executedBatch_filter_not]
    exact congrArg _ ih

/-- Claim C3, counterexample: in the batch `[input "x", resize 100 30]` the
resize is enqueued after the input, yet `handle_current_commands` executes
the resize first, so a later-enqueued resize does overtake an
earlier-enqueued non-resize of the same drain batch. -/
theorem resize_overtakes_counterexample :
    (List.indexOf (UiCommand.input "x")
        [UiCommand.input "x", UiCommand.resize 100 30]
      < List.indexOf (UiCommand.resize 100 30)
        [UiCommand.input "x", UiCommand.resize 100 30]) ∧
    executedBatch UiCommand.is_resize [UiCommand.input "x", UiCommand.resize 100 30]
      = [UiCommand.resize 100 30, UiCommand.input "x"] ∧
    ¬ (List.indexOf (UiCommand.input "x")
        (executedBatch UiCommand.is_resize [UiCommand.input "x", UiCommand.resize 100 30])
      < List.indexOf (UiCommand.resize 100 30)
        (executedBatch UiCommand.is_resize [UiCommand.input "x", UiCommand.resize 100 30])) := by
  refine ⟨by decide, by decide, by decide⟩

/-- Claim C3 amended: execution is FIFO across drain batches — every command
of an earlier batch executes before any command of a later batch — and
within one batch the single coalesced resize (the last resize of the batch)
executes first, before all non-resize commands, which then run in enqueue
order.  Hence a later-enqueued resize overtakes only non-resize commands of
its own batch, never commands of an earlier batch. -/
theorem resize_ordering_amended {C : Type} (p : C → Bool) (b : List C)
    (bs : List (List C)) :
    pumpExecuted p (b :: bs) = executedBatch p b ++ pumpExecuted p bs ∧
    executedBatch p b = (b.filter p).getLast?.toList ++ b.filter (fun c => !p c) := by
  exact ⟨by simp [pumpExecuted], executedBatch_eq p b⟩

/-- Claim C5: the pump loop stops exactly when the queue reports closed.  At
every ready state of the queue, `drain` yields no batch exactly when the
queue is closed with an empty backlog (every producer end released);
`handle_current_commands` answers `false` exactly when `drain` yields no
batch, and that answer is what breaks the pump loop, while a pending
command keeps the loop running. -/
theorem pump_stops_iff_closed {C : Type} (p : C → Bool) (q : CommandQueue C)
    (hready : q.pending ≠ [] ∨ q.closed = true) :
    ((drain q).1 = none ↔ q.closed = true ∧ q.pending = []) ∧
    ((handle_current_commands p q).1 = false ↔ (drain q).1 = none) ∧
    (q.pending ≠ [] → (handle_current_commands p q).1 = true) := by
  refine ⟨?_, ?_, ?_⟩
  · cases hq : q.pending with
    | nil =>
      have hclosed : q.closed = true := hready.resolve_left (by simp [hq])
      simp [drain, hq, hclosed]
    | cons c rest => simp [drain, hq]
  · cases hq : q.pending with
    | nil => simp [handle_current_commands, drain, hq]
    | cons c rest => simp [handle_current_commands, drain, hq]
  · intro hne
    cases hq : q.pending with
    | nil => exact absurd hq hne
    | cons c rest => simp [handle_current_commands, drain, hq]

/-- Witness for claim C5 at the closed empty queue. -/
theorem pump_stops_iff_closed_witness :
    ((drain (CommandQueue.mk ([] : List UiCommand) true)).1 = none
      ↔ (CommandQueue.mk ([] : List UiCommand) true).closed = true
        ∧ (CommandQueue.mk ([] : List UiCommand) true).pending = []) ∧
    ((handle_current_commands UiCommand.is_resize
        (CommandQueue.mk ([] : List UiCommand) true)).1 = false
      ↔ (drain (CommandQueue.mk ([] : List UiCommand) true)).1 = none) ∧
    ((CommandQueue.mk ([] : List UiCommand) true).pending ≠ [] →
      (handle_current_commands UiCommand.is_resize
        (CommandQueue.mk ([] : List UiCommand) true)).1 = true) :=
  pump_stops_iff_closed UiCommand.is_resize
    (CommandQueue.mk ([] : List UiCommand) true) (Or.inr rfl)

/-- Claim C10: whenever `drain` yields a batch it is the whole non-empty
backlog: the head is the command returned by the blocking receive and the
tail follows in arrival order; consequently the cycle executes at least one
command. -/
theorem drain_batch_nonempty {C : Type} (p : C → Bool) (q : CommandQueue C)
    (cmds : List C) (q' : CommandQueue C)
    (h : drain q = (some cmds, q')) :
    cmds ≠ [] ∧ cmds = q.pending ∧ executedBatch p cmds ≠ [] := by
  cases hq : q.pending with
  | nil =>
    rw [drain, hq] at h
    exact absurd (congrArg Prod.fst h) (by simp)
  | cons c rest =>
    rw [drain, hq] at h
    have hcmds : cmds = c :: rest := by
      have := congrArg Prod.fst h
      simpa using this.symm
    subst hcmds
    refine ⟨by simp, rfl, ?_⟩
    rw [executedBatch_eq]
    intro hnil
    rcases List.append_eq_nil.mp hnil with ⟨hlast, hother⟩
    cases hp : p c with
    | true =>
      have : (c :: rest).filter p = c :: rest.filter p := by simp [hp]
      rw [this] at hlast
      have : ((c :: rest.filter p).getLast?).isSome := by
        rw [List.getLast?_eq_getLast_of_ne_nil (by simp)]
        rfl
      rcases Option.isSome_iff_exists.mp this with ⟨a, ha⟩
      rw [ha] at hlast
      simp at hlast
    | false =>
      have : (c :: rest).filter (fun x => !p x) = c :: rest.filter (fun x => !p x) := by
        simp [hp]
      rw [this] at hother
      simp at hother

/-- Witness for claim C10 at a two-command backlog. -/
theorem drain_batch_nonempty_witness :
    ([UiCommand.input "a", UiCommand.input "b"] : List UiCommand) ≠ [] ∧
    ([UiCommand.input "a", UiCommand.input "b"] : List UiCommand)
      = (CommandQueue.mk [UiCommand.input "a", UiCommand.input "b"] false).pending ∧
    executedBatch UiCommand.is_resize [UiCommand.input "a", UiCommand.input "b"] ≠ [] :=
  drain_batch_nonempty UiCommand.is_resize
    (CommandQueue.mk [UiCommand.input "a", UiCommand.input "b"] false)
    [UiCommand.input "a", UiCommand.input "b"]
    (CommandQueue.mk [] false) rfl

/--
`Command` models the process-builder state accumulated by
`create_nvim_command`: program name, argument vector, whether stderr is
inherited from the host, and the Windows process-creation flags when set.
-/
structure Command where
  program : String
  argv : List String
  stderrInherited : Bool
  creationFlags : Option Nat
deriving DecidableEq, Repr

/-- `Command::new(program)`: a builder with no arguments and default stdio. -/
def Command.new (program : String) : Command :=
  { program := program, argv := [], stderrInherited := false, creationFlags := none }

/-- `cmd.arg(a)`: append one argument. -/
def Command.arg (cmd : Command) (a : String) : Command :=
  { cmd with argv := cmd.argv ++ [a] }

/-- `cmd.args(more)`: append a sequence of arguments in order. -/
def Command.argsAppend (cmd : Command) (more : List String) : Command :=
  { cmd with argv := cmd.argv ++ more }

/-- `cmd.stderr(Stdio::inherit())`. -/
def Command.stderrInherit (cmd : Command) : Command :=
  { cmd with stderrInherited := true }

/-- `set_windows_creation_flags`: sets `CREATE_NO_WINDOW` (0x08000000). -/
def set_windows_creation_flags (cmd : Command) : Command :=
  { cmd with creationFlags := some 0x08000000 }

/--
`create_nvim_command` embeds the source function of the same name.
`hostArgs` stands for `std::env::args()`, the host argv whose element 0 is
the host program name; `isWindows` embeds the `cfg(target_os = "windows")`
conditional compilation.
-/
def create_nvim_command (isWindows : Bool) (hostArgs : List String) : Command :=
  let cmd := Command.new "nvim"
  let cmd := ((cmd.arg "--embed").argsAppend (hostArgs.drop 1)).stderrInherit
  if isWindows then set_windows_creation_flags cmd else cmd

/-- Claim C7: the editor invocation is the binary `nvim` with `--embed`
followed by every host argument after argument 0, verbatim and in order;
stderr is inherited; on Windows the CREATE_NO_WINDOW creation flag
(0x08000000) is set and on other platforms no creation flag is set. -/
theorem nvim_command_spec (isWindows : Bool) (hostArgs : List String) :
    (create_nvim_command isWindows hostArgs).program = "nvim" ∧
    (create_nvim_command isWindows hostArgs).argv = "--embed" :: hostArgs.drop 1 ∧
    (create_nvim_command isWindows hostArgs).stderrInherited = true ∧
    (create_nvim_command isWindows hostArgs).creationFlags
      = (if isWindows then some 0x08000000 else none) := by
  cases isWindows <;>
    simp [create_nvim_command, Command.new, Command.arg, Command.argsAppend,
      Command.stderrInherit, set_windows_creation_flags]

/-- Modelled from the external RPC value library: only the boolean variant
is needed (`Value::Boolean(true)` in the handshake). -/
inductive Value where
  | boolean (b : Bool)
deriving DecidableEq, Repr

/-- Modelled from the external RPC library and the spec: the UI attach
options record the two capabilities the handshake enables. -/
structure UiAttachOptions where
  rgb : Bool
  ext_linegrid : Bool
deriving DecidableEq, Repr

/-- `UiAttachOptions::new()`: no capability enabled yet. -/
def UiAttachOptions.new : UiAttachOptions := { rgb := false, ext_linegrid := false }

/-- `options.set_linegrid_external(b)`. -/
def UiAttachOptions.set_linegrid_external (o : UiAttachOptions) (b : Bool) :
    UiAttachOptions :=
  { o with ext_linegrid := b }

/-- `options.set_rgb(b)`. -/
def UiAttachOptions.set_rgb (o : UiAttachOptions) (b : Bool) : UiAttachOptions :=
  { o with rgb := b }

/-- The observable steps of `start_process` and of the pump task it
spawns, in the order the await points complete. -/
inductive Event where
  | spawnChild
  | setVar (name : String) (val : Value)
  | uiAttach (width height : Int) (options : UiAttachOptions)
  | executeCmd (c : UiCommand)
deriving DecidableEq, Repr

/-- The options value built in `start_process`:
`UiAttachOptions::new()` then `set_linegrid_external(true)` then
`set_rgb(true)`. -/
def attachOptions : UiAttachOptions :=
  (UiAttachOptions.new.set_linegrid_external true).set_rgb true

/--
`startTrace` is the event trace of a successful `start_process` run: spawn
the child, then `nvim.set_var("neovide", true)` completes, then
`nvim.ui_attach(width, height, options)` completes, and only then is the
pump task spawned, whose executions follow.  Each step in the source is a
sequential `await` before the next begins, so the trace is their
completion order.
-/
def startTrace (width height : Nat) (batches : List (List UiCommand)) : List Event :=
  [Event.spawnChild,
   Event.setVar "neovide" (Value.boolean true),
   Event.uiAttach (width : Int) (height : Int) attachOptions]
  ++ (pumpExecuted UiCommand.is_resize batches).map Event.executeCmd

/-- Outcome of `start_process`: either a fatal two-line panic (modelled
from the spec: `unwrap_or_explained_panic` lives in the missing
`error_handling` module and aborts with a short title and a longer cause)
or a started run with its event trace. -/
inductive StartResult where
  | panicked (title explanation : String)
  | started (trace : List Event)
deriving DecidableEq, Repr

/--
`start_process` embeds the source function of the same name.  The three
booleans say whether the corresponding fallible step succeeds: spawning
the child via `new_child_cmd`, the `set_var` request, and the `ui_attach`
request.  The first failure aborts with the panic strings of its call
site, in source order.
-/
def start_process (spawnOk setVarOk uiAttachOk : Bool)
    (width height : Nat) (batches : List (List UiCommand)) : StartResult :=
  match spawnOk, setVarOk, uiAttachOk with
  | false, _, _ =>
      .panicked "Could not create nvim process"
        "Could not locate or start the neovim process"
  | true, false, _ =>
      .panicked "Could not communicate."
        "Could not communicate with neovim process"
  | true, true, false =>
      .panicked "Could not attach."
        "Could not attach ui to neovim process"
  | true, true, true => .started (startTrace width height batches)

/-- Claim C4: in a successful start, the `set_var` step (trace position 1)
completes before the `ui_attach` step (trace position 2), and every
command execution sits strictly after position 2 of the trace: no
UiCommand executes before the handshake completes. -/
theorem handshake_precedes_traffic (width height : Nat)
    (batches : List (List UiCommand)) :
    (startTrace width height batches)[1]?
      = some (Event.setVar "neovide" (Value.boolean true)) ∧
    (startTrace width height batches)[2]?
      = some (Event.uiAttach (width : Int) (height : Int) attachOptions) ∧
    start_process true true true width height batches
      = StartResult.started (startTrace width height batches) ∧
    (∀ i c, (startTrace width height batches)[i]? = some (Event.executeCmd c)
      → 2 < i) := by
  refine ⟨by simp [startTrace], by simp [startTrace], rfl, ?_⟩
  intro i c h
  match i with
  | 0 => simp [startTrace] at h
  | 1 => simp [startTrace] at h
  | 2 => simp [startTrace] at h
  | (n + 3) => omega

/-- Witness for claim C4 at a one-batch schedule with one input command. -/
theorem handshake_precedes_traffic_witness :
    (startTrace 100 50 [[UiCommand.input "x"]])[1]?
      = some (Event.setVar "neovide" (Value.boolean true)) ∧ (2 : Nat) < 3 :=
  ⟨(handshake_precedes_traffic 100 50 [[UiCommand.input "x"]]).1,
   (handshake_precedes_traffic 100 50 [[UiCommand.input "x"]]).2.2.2 3
     (UiCommand.input "x") rfl⟩

/-- Claim C6: the handshake sets the editor variable `"neovide"` to boolean
true and issues the UI attach request with the initial cell-grid
dimensions and options in which line-grid external rendering and RGB color
are both enabled. -/
theorem handshake_contents (width height : Nat) (batches : List (List UiCommand)) :
    attachOptions.ext_linegrid = true ∧
    attachOptions.rgb = true ∧
    (startTrace width height batches)[1]?
      = some (Event.setVar "neovide" (Value.boolean true)) ∧
    (startTrace width height batches)[2]?
      = some (Event.uiAttach (width : Int) (height : Int) attachOptions) :=
  ⟨rfl, rfl, by simp [startTrace], by simp [startTrace]⟩

/-- Claim C9: each of the three startup failure points aborts with its own
two-line explanation, and the three titles, as well as the three causes,
are pairwise distinct. -/
theorem startup_failures_distinct (width height : Nat)
    (batches : List (List UiCommand)) (b b' : Bool) :
    start_process false b b' width height batches
      = StartResult.panicked "Could not create nvim process"
          "Could not locate or start the neovim process" ∧
    start_process true false b' width height batches
      = StartResult.panicked "Could not communicate."
          "Could not communicate with neovim process" ∧
    start_process true true false width height batches
      = StartResult.panicked "Could not attach."
          "Could not attach ui to neovim process" ∧
    ("Could not create nvim process" ≠ "Could not communicate." ∧
     "Could not create nvim process" ≠ "Could not attach." ∧
     "Could not communicate." ≠ "Could not attach.") ∧
    ("Could not locate or start the neovim process"
        ≠ "Could not communicate with neovim process" ∧
     "Could not locate or start the neovim process"
        ≠ "Could not attach ui to neovim process" ∧
     "Could not communicate with neovim process"
        ≠ "Could not attach ui to neovim process") := by
  refine ⟨rfl, rfl, rfl, ⟨?_, ?_, ?_⟩, ⟨?_, ?_, ?_⟩⟩ <;> decide

/-- Outcome of awaiting the RPC I/O driver future, as matched by the
supervisory task: a task-join error, an I/O error, or clean completion. -/
inductive IoLoopResult where
  | joinErr (msg : String)
  | ioErr (msg : String)
  | clean
deriving DecidableEq, Repr

/--
`superviseIoLoop` embeds the supervisory task spawned in `start_process`:
it matches the awaited I/O result, logs the error (if any) to stderr, and
calls `std::process::exit(0)`.  The result is the stderr lines written and
the exit status passed to `exit`.
-/
def superviseIoLoop : IoLoopResult → List String × Nat
  | .joinErr msg => (["Error joining IO loop: " ++ msg], 0)
  | .ioErr msg => (["Error: " ++ msg], 0)
  | .clean => ([], 0)

/-- Claim C8: whenever the I/O driver future completes — cleanly, with an
I/O error, or with a join error — the host exits with status 0, and stderr
receives a log line exactly in the two error cases; no other exit status
occurs on this path. -/
theorem io_loop_exit_zero (r : IoLoopResult) :
    (superviseIoLoop r).2 = 0 ∧
    ((superviseIoLoop r).1 = [] ↔ r = IoLoopResult.clean) := by
  cases r <;> simp [superviseIoLoop]

end NeovideBridge
